import Mathlib

/-!
# L2-Uploader: verification of the streaming-ingestion-and-batched-archival core

Shallow embedding of the core pipeline of the L2-Uploader repository:

* `binance_l2_stream.py` — `BinanceL2Streamer`: batching (`_recv_loop`),
  flushing (`_flush`) and the reconnect backoff (`connect_loop`);
* `upload_to_s3.py` — `S3Uploader`: serialization, key derivation
  (`_build_key`) and the retrying upload (`upload_messages`);
* `run_uploader.py` / `aws_config.py` — startup validation (`main`,
  `AWSConfig`, `StreamConfig`).

Times are modelled as natural numbers (abstract clock ticks); message
payloads are opaque byte sequences (`List Nat`), matching the spec's
"opaque byte sequence" RawMessage payload; the gzip compressor is an
external library and is modelled as an abstract function, quantified
together with a decompressor satisfying the round-trip law where a claim
needs decompression.  Upload outcomes (the S3 `put` succeeding or
raising) are supplied as oracle parameters, since the network is
external to the program.
-/

/-- A received message as batched by `_recv_loop`
(`{"_raw": msg, "_ts": ts.isoformat()}`): the raw wire payload as a byte
sequence plus the receipt timestamp. -/
structure RawMessage where
  raw : List Nat
  ts : Nat
deriving DecidableEq, Repr

/-- The batching configuration consumed by `BinanceL2Streamer`
(`StreamConfig.batch_seconds`, `StreamConfig.max_messages_per_batch`). -/
structure Conf where
  batchSeconds : Nat
  maxMessages : Nat
deriving DecidableEq, Repr

/-- The mutable batching state of `BinanceL2Streamer`: `self.batch` and
`self.batch_start`. -/
structure StState where
  batch : List RawMessage
  batchStart : Nat
deriving DecidableEq, Repr

/-- Outcome of one `_flush` call: the streamer state afterwards, plus the
list of upload attempts it made, each recorded as the snapshot of
messages handed to `upload_messages` together with whether that upload
succeeded. -/
structure FlushOut where
  state : StState
  attempts : List (List RawMessage × Bool)
deriving DecidableEq, Repr

/-- Model of `BinanceL2Streamer._flush`: if the batch is empty, return without an
upload; otherwise hand a copy of the batch to `upload_messages`.  On
success (`ok = true`) clear the batch and restart the window
(`self.batch = []; self.batch_start = time.time()`); on failure (the
upload raised after exhausting its retries) keep the batch untouched.
`now` is the value of `time.time()` at flush completion; `ok` is the
upload outcome oracle. -/
def flushM (st : StState) (now : Nat) (ok : Bool) : FlushOut :=
  if st.batch = [] then ⟨st, []⟩
  else if ok then ⟨⟨[], now⟩, [(st.batch, true)]⟩
  else ⟨st, [(st.batch, false)]⟩

/-- One iteration of `BinanceL2Streamer._recv_loop` after a message is
received: append `{"_raw": msg, "_ts": ...}` to `self.batch`, evaluate
the primary flush predicate
`batch_age >= batch_seconds or len(batch) >= max_messages_per_batch`
(flushing if it holds), then evaluate the safety check
`len(batch) > max_messages_per_batch * 2` (flushing again if it holds).
`now` is `time.time()` during this iteration; `ok1`, `ok2` are the
outcome oracles for the (up to two) upload attempts. -/
def accept (conf : Conf) (st : StState) (m : RawMessage) (now : Nat)
    (ok1 ok2 : Bool) : FlushOut :=
  let st1 : StState := ⟨st.batch ++ [m], st.batchStart⟩
  let f1 :=
    if conf.batchSeconds ≤ now - st1.batchStart ∨
        conf.maxMessages ≤ st1.batch.length then
      flushM st1 now ok1
    else ⟨st1, []⟩
  let f2 :=
    if conf.maxMessages * 2 < f1.state.batch.length then
      flushM f1.state now ok2
    else ⟨f1.state, []⟩
  ⟨f2.state, f1.attempts ++ f2.attempts⟩

/-- The primary flush predicate of `_recv_loop`, evaluated on the batch
as it stands after the append. -/
def flushPredicate (conf : Conf) (st : StState) (m : RawMessage)
    (now : Nat) : Prop :=
  conf.batchSeconds ≤ now - st.batchStart ∨
    conf.maxMessages ≤ (st.batch ++ [m]).length

instance (conf : Conf) (st : StState) (m : RawMessage) (now : Nat) :
    Decidable (flushPredicate conf st m now) := by
  unfold flushPredicate; infer_instance

/-! ## Serialization and the archived-object format (`upload_to_s3.py`) -/

/-- Body written into the gzip stream by `upload_messages`
(lines 60–65 of `upload_to_s3.py`): for each message in batch order, its
raw payload followed by a single newline byte
(`gz.write(msg["_raw"].encode("utf-8") + b"\n")`).  Payloads are
modelled as the byte sequences the UTF-8 encoding produces; `10` is the
newline byte. -/
def serializeBatch : List RawMessage → List Nat
  | [] => []
  | m :: rest => m.raw ++ 10 :: serializeBatch rest

/-- The archived object: the gzip compression of `serializeBatch`.  The
gzip compressor is an external library, modelled as an abstract function
`gz` on byte sequences. -/
def archivedObject (gz : List Nat → List Nat) (msgs : List RawMessage) :
    List Nat :=
  gz (serializeBatch msgs)

/-- Split a byte sequence at every occurrence of the delimiter `d`
(each occurrence separates two chunks, so a trailing delimiter yields a
trailing empty chunk). -/
def splitB (d : Nat) : List Nat → List (List Nat)
  | [] => [[]]
  | b :: bs =>
    if b = d then [] :: splitB d bs
    else (b :: (splitB d bs).headD []) :: (splitB d bs).tail

/-- Splitting a newline-terminated text into its lines: split at every
newline byte and drop the final empty chunk contributed by the
terminating newline. -/
def recoverLines (bs : List Nat) : List (List Nat) :=
  (splitB 10 bs).dropLast

/-! ## Key derivation (`S3Uploader._build_key`) -/

/-- A wall-clock timestamp broken into calendar fields, as
`datetime.datetime` presents it to `strftime`. -/
structure DateTime where
  year : Nat
  month : Nat
  day : Nat
  hour : Nat
  minute : Nat
  second : Nat
deriving DecidableEq, Repr

/-- Zero-padded two-digit field, as `strftime` renders `%m`, `%d`, `%H`,
`%M`, `%S`. -/
def fmt2 (n : Nat) : String :=
  if n < 10 then "0" ++ toString n else toString n

/-- Zero-padded four-digit year, as `strftime` renders `%Y`. -/
def fmt4 (n : Nat) : String :=
  if n < 10 then "000" ++ toString n
  else if n < 100 then "00" ++ toString n
  else if n < 1000 then "0" ++ toString n
  else toString n

/-- The `ts.strftime("%Y/%m/%d/%H")` date path of `_build_key`. -/
def strftimeDatePath (ts : DateTime) : String :=
  fmt4 ts.year ++ "/" ++ fmt2 ts.month ++ "/" ++ fmt2 ts.day ++ "/" ++
    fmt2 ts.hour

/-- The `ts.strftime("%Y%m%dT%H%M%S")` stamp of `_build_key`. -/
def strftimeStamp (ts : DateTime) : String :=
  fmt4 ts.year ++ fmt2 ts.month ++ fmt2 ts.day ++ "T" ++ fmt2 ts.hour ++
    fmt2 ts.minute ++ fmt2 ts.second

/-- Model of `S3Uploader._build_key`: the storage key
`f"{self.c.s3_prefix}/{exchange}/{stream_name}/{date_path}/{stamp}.jsonl.gz"`.
The first argument `pre` is the configured storage key root
(`s3_prefix`). -/
def build_key (pre exchange streamName : String) (ts : DateTime) : String :=
  pre ++ "/" ++ exchange ++ "/" ++ streamName ++ "/" ++
    strftimeDatePath ts ++ "/" ++ strftimeStamp ts ++ ".jsonl.gz"

/-- Modelled from the spec's storage-key layout, for comparison with the
source's `build_key`: the template
`{prefix}/{exchange}/{streamName}/{YYYY}/{MM}/{DD}/{HH}/{YYYYMMDDThhmmss}.jsonl.gz`,
an hour-bucketed directory with a second-precision filename. -/
def specKeyLayout (pre exchange streamName : String) (ts : DateTime) :
    String :=
  pre ++ "/" ++ exchange ++ "/" ++ streamName ++ "/" ++
    fmt4 ts.year ++ "/" ++ fmt2 ts.month ++ "/" ++ fmt2 ts.day ++ "/" ++
    fmt2 ts.hour ++ "/" ++
    fmt4 ts.year ++ fmt2 ts.month ++ fmt2 ts.day ++ "T" ++
    fmt2 ts.hour ++ fmt2 ts.minute ++ fmt2 ts.second ++ ".jsonl.gz"

/-! ## Retrying upload (`S3Uploader.upload_messages`) -/

/-- An in-memory byte buffer (`io.BytesIO`): its full contents plus the
current read position.  `upload_fileobj` reads from the current
position; `seek(0)` resets the position to the start. -/
structure Buf where
  content : List Nat
  pos : Nat
deriving DecidableEq, Repr

/-- Trace of one `upload_messages` call: the returned key or the raised
error (errors identified by an abstract code), the backoff sleeps
performed between attempts, and, per attempt, the bytes the attempt read
from the buffer and handed to the object-store put. -/
structure RetryTrace where
  result : Except Nat String
  waits : List Nat
  sent : List (List Nat)
deriving Repr

/-- The retry loop of `upload_messages`
(`for attempt in range(max_retries): ...`): each attempt reads the
buffer from its current position; on success the key is returned at
once; on failure, if attempts remain, the loop sleeps `2 ** attempt`
and re-enters with the buffer position reset to 0 (`buf.seek(0)`) —
the same buffer, never re-serialized; when no attempts remain the last
error is raised.  `outcome n` is the oracle for the `n`-th put
(`none` = success, `some e` = it raised error `e`); the third argument
is the remaining attempt count.  (The zero-remaining base case is
unreachable from `upload_messages` with the source's positive
`max_retries` and is given a dummy error.) -/
def uploadGo (key : String) (outcome : Nat → Option Nat) :
    Buf → Nat → Nat → RetryTrace
  | _, _, 0 => ⟨Except.error 0, [], []⟩
  | buf, attempt, r + 1 =>
    let sentNow := buf.content.drop buf.pos
    match outcome attempt with
    | none => ⟨Except.ok key, [], [sentNow]⟩
    | some e =>
      if r = 0 then ⟨Except.error e, [], [sentNow]⟩
      else
        let t := uploadGo key outcome ⟨buf.content, 0⟩ (attempt + 1) r
        ⟨t.result, 2 ^ attempt :: t.waits, sentNow :: t.sent⟩

/-- Model of `S3Uploader.upload_messages`: empty batches return the
empty key without any attempt; otherwise the batch is serialized once,
gzip-compressed into a buffer whose position is reset to the start
(`buf.seek(0)`), the key is derived with `_build_key`, and the retry
loop runs with `max_retries` attempts. -/
def upload_messages (gz : List Nat → List Nat)
    (pre exchange streamName : String) (ts : DateTime)
    (msgs : List RawMessage) (outcome : Nat → Option Nat)
    (maxRetries : Nat) : RetryTrace :=
  if msgs = [] then ⟨Except.ok "", [], []⟩
  else
    uploadGo (build_key pre exchange streamName ts) outcome
      ⟨archivedObject gz msgs, 0⟩ 0 maxRetries

/-! ## Reconnect backoff (`BinanceL2Streamer.connect_loop`) -/

/-- Constant `INITIAL_RECONNECT_DELAY = 1` of `binance_l2_stream.py`. -/
def INITIAL_RECONNECT_DELAY : Nat := 1

/-- Constant `MAX_RECONNECT_DELAY = 300` of `binance_l2_stream.py`. -/
def MAX_RECONNECT_DELAY : Nat := 300

/-- Delay evolution of `connect_loop`.  Each list element records one
loop iteration: `true` if the `websockets.connect` of that iteration
succeeded (resetting `self.reconnect_delay` to
`INITIAL_RECONNECT_DELAY` before the connection eventually fails),
`false` if the connect itself failed.  Every iteration ends with the
backoff sleep of the current delay followed by
`self.reconnect_delay = min(self.reconnect_delay * 2, MAX_RECONNECT_DELAY)`.
Returns the stored delay after the iterations together with the list of
sleeps performed. -/
def connectLoopSleeps : Nat → List Bool → Nat × List Nat
  | d, [] => (d, [])
  | d, connected :: rest =>
    let d1 := if connected then INITIAL_RECONNECT_DELAY else d
    let next := connectLoopSleeps (min (d1 * 2) MAX_RECONNECT_DELAY) rest
    (next.1, d1 :: next.2)

/-! ## Startup validation (`run_uploader.py`, `aws_config.py`) -/

/-- The process environment as read by `os.getenv`: `none` = variable
absent.  Integer-valued variables are modelled already parsed. -/
structure Env where
  awsAccessKeyId : Option String
  awsSecretAccessKey : Option String
  awsRegion : Option String
  s3BucketName : Option String
  s3Pre : Option String
  symbol : Option String
  depthLevel : Option Nat
  updateSpeedMs : Option Nat
  batchSeconds : Option Nat
  maxMessagesPerBatch : Option Nat
deriving DecidableEq, Repr

/-- Model of `aws_config.AWSConfig`: credentials and bucket stay
optional (no default), region and the storage key root (`s3_prefix`)
have defaults. -/
structure AWSConfig where
  awsAccessKeyId : Option String
  awsSecretAccessKey : Option String
  awsRegion : String
  s3BucketName : Option String
  s3Pre : String
deriving DecidableEq, Repr

/-- Constructor `AWSConfig.__init__` reading the environment. -/
def AWSConfig.ofEnv (e : Env) : AWSConfig :=
  ⟨e.awsAccessKeyId, e.awsSecretAccessKey,
    e.awsRegion.getD "eu-central-1", e.s3BucketName,
    e.s3Pre.getD "binance/l2"⟩

/-- Model of `aws_config.StreamConfig`: every field has a default, so a
stream identity always exists. -/
structure StreamConfig where
  symbol : String
  depthLevel : Nat
  updateSpeedMs : Nat
  batchSeconds : Nat
  maxMessagesPerBatch : Nat
deriving DecidableEq, Repr

/-- Constructor `StreamConfig.__init__` reading the environment. -/
def StreamConfig.ofEnv (e : Env) : StreamConfig :=
  ⟨(e.symbol.getD "btcusdt").toLower, e.depthLevel.getD 20,
    e.updateSpeedMs.getD 1000, e.batchSeconds.getD 10,
    e.maxMessagesPerBatch.getD 5000⟩

/-- The `stream_name` property:
`f"{self.symbol}@depth{self.depth_level}@{self.update_speed_ms}ms"`. -/
def StreamConfig.streamName (c : StreamConfig) : String :=
  c.symbol ++ "@depth" ++ toString c.depthLevel ++ "@" ++
    toString c.updateSpeedMs ++ "ms"

/-- Python truthiness test `not value` on an `os.getenv` result: true
when the variable is absent or empty. -/
def falsyStr : Option String → Bool
  | none => true
  | some s => s.isEmpty

/-- Result of `run_uploader.main` up to the point the streamer starts:
either the process exits with a code before any connection attempt, or
the validated configuration is handed to `BinanceL2Streamer` and the
streamer runs. -/
inductive MainResult where
  | fatalExit (code : Nat)
  | runStreamer (aws : AWSConfig) (stream : StreamConfig)
deriving DecidableEq, Repr

/-- Model of `run_uploader.main` (lines 48–78): build the configuration,
then validate — missing/empty credentials exit with code 1, a
missing/empty bucket exits with code 1 — and only then construct and
run the streamer.  The `fatalExit` branches are taken before
`BinanceL2Streamer` is constructed, hence before any connection
attempt. -/
def mainStartup (e : Env) : MainResult :=
  let aws := AWSConfig.ofEnv e
  let stream := StreamConfig.ofEnv e
  if falsyStr aws.awsAccessKeyId || falsyStr aws.awsSecretAccessKey then
    MainResult.fatalExit 1
  else if falsyStr aws.s3BucketName then
    MainResult.fatalExit 1
  else
    MainResult.runStreamer aws stream

/-! ## Shared helper lemmas -/

/-- Shared helper: full case characterization of one `accept` step.  The
safety re-flush can only fire on a batch the primary flush retained
(a failed first upload), since a successful first upload empties the
batch and a skipped primary flush means the size disjunct — hence the
safety bound too — was not reached. -/
lemma accept_eq (conf : Conf) (st : StState) (m : RawMessage) (now : Nat)
    (ok1 ok2 : Bool) :
    accept conf st m now ok1 ok2 =
      if flushPredicate conf st m now then
        if ok1 then ⟨⟨[], now⟩, [(st.batch ++ [m], true)]⟩
        else if conf.maxMessages * 2 < (st.batch ++ [m]).length then
          if ok2 then
            ⟨⟨[], now⟩,
              [(st.batch ++ [m], false), (st.batch ++ [m], true)]⟩
          else
            ⟨⟨st.batch ++ [m], st.batchStart⟩,
              [(st.batch ++ [m], false), (st.batch ++ [m], false)]⟩
        else ⟨⟨st.batch ++ [m], st.batchStart⟩, [(st.batch ++ [m], false)]⟩
      else ⟨⟨st.batch ++ [m], st.batchStart⟩, []⟩ := by
  have hnil : ¬ (st.batch ++ [m] = []) := by simp
  by_cases hp : flushPredicate conf st m now
  · rw [if_pos hp]
    unfold flushPredicate at hp
    have hp' : conf.batchSeconds ≤ now - st.batchStart ∨
        conf.maxMessages ≤ st.batch.length + 1 := by simpa using hp
    cases ok1 with
    | true =>
      simp [accept, flushM, hp', hnil, Nat.not_lt_zero]
    | false =>
      by_cases hs : conf.maxMessages * 2 < st.batch.length + 1
      · cases ok2 <;> simp [accept, flushM, hp', hnil, hs]
      · simp [accept, flushM, hp', hnil, hs]
  · rw [if_neg hp]
    unfold flushPredicate at hp
    have hp' : ¬ (conf.batchSeconds ≤ now - st.batchStart ∨
        conf.maxMessages ≤ st.batch.length + 1) := by simpa using hp
    have hs : ¬ conf.maxMessages * 2 < st.batch.length + 1 := by
      intro hc
      exact hp' (Or.inr (by omega))
    simp [accept, flushM, hp', hnil, hs]

/-- Shared helper: an `accept` step makes at least one upload attempt
iff the primary predicate holds. -/
lemma accept_attempts_ne_nil_iff (conf : Conf) (st : StState)
    (m : RawMessage) (now : Nat) (ok1 ok2 : Bool) :
    (accept conf st m now ok1 ok2).attempts ≠ [] ↔
      flushPredicate conf st m now := by
  rw [accept_eq]
  by_cases hp : flushPredicate conf st m now
  · cases ok1 with
    | true => simp [hp]
    | false =>
      by_cases hs : conf.maxMessages * 2 < st.batch.length + 1
      · cases ok2 <;> simp [hp, hs]
      · simp [hp, hs]
  · simp [hp]

/-- Shared helper: when every attempt of an `accept` step failed (and
there was at least one), the state after the step is the appended batch
with the window start unchanged. -/
lemma accept_state_of_all_failed (conf : Conf) (st : StState)
    (m : RawMessage) (now : Nat) (ok1 ok2 : Bool)
    (hne : (accept conf st m now ok1 ok2).attempts ≠ [])
    (hfail : ∀ a ∈ (accept conf st m now ok1 ok2).attempts, a.2 = false) :
    (accept conf st m now ok1 ok2).state =
      ⟨st.batch ++ [m], st.batchStart⟩ := by
  have hp : flushPredicate conf st m now :=
    (accept_attempts_ne_nil_iff conf st m now ok1 ok2).1 hne
  rw [accept_eq] at hfail ⊢
  cases ok1 with
  | true =>
    exfalso
    have := hfail (st.batch ++ [m], true) (by simp [hp])
    simp at this
  | false =>
    by_cases hs : conf.maxMessages * 2 < st.batch.length + 1
    · cases ok2 with
      | true =>
        exfalso
        have := hfail (st.batch ++ [m], true) (by simp [hp, hs])
        simp at this
      | false => simp [hp, hs]
    · simp [hp, hs]

/-- Shared helper: every upload attempt of an `accept` step is handed
the appended batch `st.batch ++ [m]` as its snapshot. -/
lemma accept_attempts_fst (conf : Conf) (st : StState) (m : RawMessage)
    (now : Nat) (ok1 ok2 : Bool) :
    ∀ a ∈ (accept conf st m now ok1 ok2).attempts,
      a.1 = st.batch ++ [m] := by
  intro a ha
  rw [accept_eq] at ha
  by_cases hp : flushPredicate conf st m now
  · cases ok1 with
    | true =>
      simp [hp] at ha
      simp [ha]
    | false =>
      by_cases hs : conf.maxMessages * 2 < st.batch.length + 1
      · cases ok2 with
        | true =>
          simp [hp, hs] at ha
          rcases ha with h | h
          · simp [h]
          · simp [h]
        | false =>
          simp [hp, hs] at ha
          simp [ha]
      · simp [hp, hs] at ha
        simp [ha]
  · simp [hp] at ha

/-- Shared helper: splitting at a delimiter undoes appending a
delimiter-terminated chunk that does not contain the delimiter. -/
lemma splitB_sep {d : Nat} {p : List Nat} (bs : List Nat) (hp : d ∉ p) :
    splitB d (p ++ d :: bs) = p :: splitB d bs := by
  induction p with
  | nil => simp [splitB]
  | cons x p' ih =>
    have hx : ¬ x = d := by
      intro h
      exact hp (h ▸ List.mem_cons_self x p')
    have hp' : d ∉ p' := fun h => hp (List.mem_cons_of_mem _ h)
    simp [splitB, hx, ih hp']

/-- Shared helper: splitting the serialized batch at newlines yields the
payloads in order, followed by the empty chunk of the terminating
newline — provided no payload contains the newline byte. -/
lemma splitB_serializeBatch (msgs : List RawMessage)
    (h : ∀ m ∈ msgs, 10 ∉ m.raw) :
    splitB 10 (serializeBatch msgs) =
      msgs.map RawMessage.raw ++ [[]] := by
  induction msgs with
  | nil => simp [serializeBatch, splitB]
  | cons m rest ih =>
    have hm : 10 ∉ m.raw := h m (List.mem_cons_self m rest)
    have hrest : ∀ m' ∈ rest, 10 ∉ m'.raw :=
      fun m' hm' => h m' (List.mem_cons_of_mem _ hm')
    show splitB 10 (m.raw ++ 10 :: serializeBatch rest) = _
    rw [splitB_sep _ hm, ih hrest]
    simp

/-- Shared helper: line recovery inverts serialization on batches of
newline-free payloads. -/
lemma recoverLines_serializeBatch (msgs : List RawMessage)
    (h : ∀ m ∈ msgs, 10 ∉ m.raw) :
    recoverLines (serializeBatch msgs) = msgs.map RawMessage.raw := by
  unfold recoverLines
  rw [splitB_serializeBatch msgs h]
  exact List.dropLast_concat

/-- Shared helper: capped doubling in one step. -/
lemma cap_double (a : Nat) :
    min (min a MAX_RECONNECT_DELAY * 2) MAX_RECONNECT_DELAY =
      min (a * 2) MAX_RECONNECT_DELAY := by
  unfold MAX_RECONNECT_DELAY
  omega

/-- The closed form of the capped exponential backoff delay. -/
def cappedDelay (k : Nat) : Nat := min (2 ^ k) MAX_RECONNECT_DELAY

/-- Shared helper: capped doubling advances the closed form. -/
lemma cappedDelay_step (k : Nat) :
    min (cappedDelay k * 2) MAX_RECONNECT_DELAY = cappedDelay (k + 1) := by
  unfold cappedDelay
  rw [pow_succ]
  exact cap_double (2 ^ k)

/-- Shared helper: a run of `n` failed connection attempts starting from
the closed-form delay `cappedDelay k` sleeps
`cappedDelay k, …, cappedDelay (k+n-1)` and stores `cappedDelay (k+n)`. -/
lemma connectLoopSleeps_replicate (n : Nat) :
    ∀ k, connectLoopSleeps (cappedDelay k) (List.replicate n false) =
      (cappedDelay (k + n),
        (List.range n).map fun i => cappedDelay (k + i)) := by
  induction n with
  | zero => intro k; simp [connectLoopSleeps]
  | succ n ih =>
    intro k
    rw [List.replicate_succ]
    show ((connectLoopSleeps (min (cappedDelay k * 2) MAX_RECONNECT_DELAY)
        (List.replicate n false)).1,
      cappedDelay k ::
        (connectLoopSleeps (min (cappedDelay k * 2) MAX_RECONNECT_DELAY)
          (List.replicate n false)).2) = _
    rw [cappedDelay_step, ih (k + 1)]
    have h1 : k + 1 + n = k + (n + 1) := by omega
    rw [h1]
    have h2 : (List.range (n + 1)).map (fun i => cappedDelay (k + i)) =
        cappedDelay k ::
          (List.range n).map fun i => cappedDelay (k + 1 + i) := by
      rw [List.range_succ_eq_map, List.map_cons, List.map_map]
      have h3 : ((fun i => cappedDelay (k + i)) ∘ Nat.succ) =
          fun i => cappedDelay (k + 1 + i) := by
        funext i
        have : k + Nat.succ i = k + 1 + i := by omega
        simp [Function.comp, this]
      rw [h3]
      simp
    rw [h2]

/-- Shared helper: the retry loop makes at most `r` attempts. -/
lemma uploadGo_sent_length_le (key : String) (outcome : Nat → Option Nat) :
    ∀ (r : Nat) (buf : Buf) (attempt : Nat),
      (uploadGo key outcome buf attempt r).sent.length ≤ r := by
  intro r
  induction r with
  | zero => intro buf attempt; simp [uploadGo]
  | succ r ih =>
    intro buf attempt
    cases ho : outcome attempt with
    | none => simp [uploadGo, ho]
    | some e =>
      by_cases hr : r = 0
      · simp [uploadGo, ho, hr]
      · have := ih ⟨buf.content, 0⟩ (attempt + 1)
        simp only [uploadGo, ho, if_neg hr, List.length_cons]
        omega

/-- Shared helper: with at least one attempt remaining, the retry loop
makes at least one attempt. -/
lemma uploadGo_sent_length_pos (key : String) (outcome : Nat → Option Nat)
    (r : Nat) (buf : Buf) (attempt : Nat) (hr : 1 ≤ r) :
    1 ≤ (uploadGo key outcome buf attempt r).sent.length := by
  obtain ⟨r', rfl⟩ : ∃ r', r = r' + 1 := ⟨r - 1, by omega⟩
  cases ho : outcome attempt with
  | none => simp [uploadGo, ho]
  | some e =>
    by_cases hr0 : r' = 0
    · simp [uploadGo, ho, hr0]
    · simp [uploadGo, ho, hr0]

/-- Shared helper: every attempt reads the whole buffer content — the
position is reset to the start before each re-attempt. -/
lemma uploadGo_sent_content (key : String) (outcome : Nat → Option Nat) :
    ∀ (r : Nat) (c : List Nat) (attempt : Nat),
      ∀ s ∈ (uploadGo key outcome ⟨c, 0⟩ attempt r).sent, s = c := by
  intro r
  induction r with
  | zero => intro c attempt s hs; simp [uploadGo] at hs
  | succ r ih =>
    intro c attempt s hs
    cases ho : outcome attempt with
    | none =>
      simp [uploadGo, ho] at hs
      exact hs
    | some e =>
      by_cases hr : r = 0
      · simp [uploadGo, ho, hr] at hs
        exact hs
      · simp only [uploadGo, ho, if_neg hr, List.mem_cons] at hs
        rcases hs with hs | hs
        · simpa using hs
        · exact ih c (attempt + 1) s hs

/-- Shared helper: the sleeps between successive attempts are the powers
of two indexed by the attempt number. -/
lemma uploadGo_waits (key : String) (outcome : Nat → Option Nat) :
    ∀ (r : Nat) (buf : Buf) (attempt : Nat),
      (uploadGo key outcome buf attempt r).waits =
        (List.range ((uploadGo key outcome buf attempt r).sent.length - 1)).map
          fun j => 2 ^ (attempt + j) := by
  intro r
  induction r with
  | zero => intro buf attempt; simp [uploadGo]
  | succ r ih =>
    intro buf attempt
    cases ho : outcome attempt with
    | none => simp [uploadGo, ho]
    | some e =>
      by_cases hr : r = 0
      · simp [uploadGo, ho, hr]
      · have hpos := uploadGo_sent_length_pos key outcome r
          ⟨buf.content, 0⟩ (attempt + 1) (by omega)
        simp only [uploadGo, ho, if_neg hr, List.length_cons]
        rw [ih ⟨buf.content, 0⟩ (attempt + 1)]
        obtain ⟨n, hn⟩ : ∃ n,
            (uploadGo key outcome ⟨buf.content, 0⟩ (attempt + 1) r).sent.length
              = n + 1 :=
          ⟨(uploadGo key outcome ⟨buf.content, 0⟩ (attempt + 1) r).sent.length
              - 1, by omega⟩
        rw [hn]
        simp only [Nat.add_sub_cancel]
        rw [List.range_succ_eq_map, List.map_cons, List.map_map]
        have h3 : ((fun j => 2 ^ (attempt + j)) ∘ Nat.succ) =
            fun j => 2 ^ (attempt + 1 + j) := by
          funext j
          have hj : attempt + Nat.succ j = attempt + 1 + j := by omega
          simp [Function.comp, hj]
        rw [h3]
        simp

/-- Shared helper: if the first success is at attempt index `j` (zero
based, within the attempt budget), the loop returns the key after
`j + 1` attempts. -/
lemma uploadGo_first_success (key : String) (outcome : Nat → Option Nat) :
    ∀ (j r : Nat) (buf : Buf) (attempt : Nat),
      j < r → outcome (attempt + j) = none →
      (∀ i, i < j → outcome (attempt + i) ≠ none) →
      (uploadGo key outcome buf attempt r).result = Except.ok key ∧
        (uploadGo key outcome buf attempt r).sent.length = j + 1 := by
  intro j
  induction j with
  | zero =>
    intro r buf attempt hjr hnone _
    obtain ⟨r', rfl⟩ : ∃ r', r = r' + 1 := ⟨r - 1, by omega⟩
    rw [Nat.add_zero] at hnone
    simp [uploadGo, hnone]
  | succ j ih =>
    intro r buf attempt hjr hnone hfail
    obtain ⟨r', rfl⟩ : ∃ r', r = r' + 1 := ⟨r - 1, by omega⟩
    obtain ⟨e, he⟩ : ∃ e, outcome attempt = some e := by
      have h0 := hfail 0 (by omega)
      rw [Nat.add_zero] at h0
      cases hoa : outcome attempt with
      | none => exact absurd hoa h0
      | some e2 => exact ⟨e2, rfl⟩
    have hr0 : r' ≠ 0 := by omega
    have hrec := ih r' ⟨buf.content, 0⟩ (attempt + 1) (by omega)
      (by
        rw [show attempt + 1 + j = attempt + (j + 1) by omega]
        exact hnone)
      (fun i hi => by
        rw [show attempt + 1 + i = attempt + (i + 1) by omega]
        exact hfail (i + 1) (by omega))
    simp only [uploadGo, he, if_neg hr0, List.length_cons]
    exact ⟨hrec.1, by omega⟩

/-- Shared helper: if every attempt within the budget fails, the loop
raises the error of the final attempt after exactly `r` attempts. -/
lemma uploadGo_all_fail (key : String) (outcome : Nat → Option Nat) :
    ∀ (r : Nat) (buf : Buf) (attempt e : Nat),
      1 ≤ r → (∀ i, i < r → outcome (attempt + i) ≠ none) →
      outcome (attempt + (r - 1)) = some e →
      (uploadGo key outcome buf attempt r).result = Except.error e ∧
        (uploadGo key outcome buf attempt r).sent.length = r := by
  intro r
  induction r with
  | zero => intro buf attempt e h _ _; exact absurd h (by omega)
  | succ r ih =>
    intro buf attempt e _ hfail hlast
    by_cases hr : r = 0
    · subst hr
      rw [show attempt + (1 - 1) = attempt by omega] at hlast
      simp [uploadGo, hlast]
    · obtain ⟨e0, he0⟩ : ∃ e0, outcome attempt = some e0 := by
        have h0 := hfail 0 (by omega)
        rw [Nat.add_zero] at h0
        cases hoa : outcome attempt with
        | none => exact absurd hoa h0
        | some e2 => exact ⟨e2, rfl⟩
      have hrec := ih ⟨buf.content, 0⟩ (attempt + 1) e (by omega)
        (fun i hi => by
          rw [show attempt + 1 + i = attempt + (i + 1) by omega]
          exact hfail (i + 1) (by omega))
        (by
          rw [show attempt + 1 + (r - 1) = attempt + (r + 1 - 1) by omega]
          exact hlast)
      simp only [uploadGo, he0, if_neg hr, List.length_cons]
      exact ⟨hrec.1, by omega⟩

/-- Shared helper: the serialized body is the concatenation, in batch
order, of each payload terminated by a newline byte. -/
lemma serializeBatch_eq_flatten (msgs : List RawMessage) :
    serializeBatch msgs = (msgs.map fun m => m.raw ++ [10]).flatten := by
  induction msgs with
  | nil => simp [serializeBatch]
  | cons m rest ih => simp [serializeBatch, ih]

/-! ## Claim theorems -/

/-- C1: in every flush cycle on a non-empty batch, the upload attempt is
handed exactly the messages the batch contained at flush time; the batch
is cleared and the window restarted (`batch_start := now`) exactly when
the upload reports success; on failure the state is untouched, so no
message is discarded, and a later flush on the retained state — with any
messages appended in between — uploads the retained messages followed by
the new ones. -/
theorem flush_retains_on_failure (st : StState) (now : Nat) (ok : Bool)
    (h : st.batch ≠ []) :
    (flushM st now ok).attempts = [(st.batch, ok)] ∧
    (ok = true → (flushM st now ok).state = ⟨[], now⟩) ∧
    (ok = false →
      (flushM st now ok).state = st ∧
      ∀ (extra : List RawMessage) (now' : Nat) (ok' : Bool),
        (flushM ⟨(flushM st now ok).state.batch ++ extra,
            (flushM st now ok).state.batchStart⟩ now' ok').attempts =
          [(st.batch ++ extra, ok')]) := by
  have hne : ∀ (extra : List RawMessage), st.batch ++ extra ≠ [] := by
    intro extra hx
    exact h (List.append_eq_nil.mp hx).1
  refine ⟨?_, ?_, ?_⟩
  · cases ok <;> simp [flushM, h]
  · intro hok; subst hok; simp [flushM, h]
  · intro hok; subst hok
    refine ⟨by simp [flushM, h], ?_⟩
    intro extra now' ok'
    have h1 : (flushM st now false).state = st := by simp [flushM, h]
    rw [h1]
    cases ok' <;> simp [flushM, hne extra]

/-- C1 witness: a failed flush on the singleton batch retains it. -/
theorem flush_retains_on_failure_witness :
    (({ batch := [⟨[104], 0⟩], batchStart := 5 } : StState).batch ≠ []) ∧
    ((flushM ⟨[⟨[104], 0⟩], 5⟩ 9 false).attempts =
        [([⟨[104], 0⟩], false)] ∧
      (false = true → (flushM ⟨[⟨[104], 0⟩], 5⟩ 9 false).state = ⟨[], 9⟩) ∧
      (false = false →
        (flushM ⟨[⟨[104], 0⟩], 5⟩ 9 false).state = ⟨[⟨[104], 0⟩], 5⟩ ∧
        ∀ (extra : List RawMessage) (now' : Nat) (ok' : Bool),
          (flushM ⟨(flushM ⟨[⟨[104], 0⟩], 5⟩ 9 false).state.batch ++ extra,
              (flushM ⟨[⟨[104], 0⟩], 5⟩ 9 false).state.batchStart⟩
            now' ok').attempts = [([⟨[104], 0⟩] ++ extra, ok')])) :=
  ⟨by decide, flush_retains_on_failure ⟨[⟨[104], 0⟩], 5⟩ 9 false (by decide)⟩

/-- C2: `accept` first appends the message (every upload attempt of the
step is handed the appended batch, and when no flush fires the state
holds the appended batch), then a flush cycle is triggered exactly when
`elapsed(batch_start) >= batch_seconds` or the appended batch has
reached `max_messages_per_batch`. -/
theorem accept_flush_exactly_on_predicate (conf : Conf) (st : StState)
    (m : RawMessage) (now : Nat) (ok1 ok2 : Bool) :
    ((accept conf st m now ok1 ok2).attempts ≠ [] ↔
      conf.batchSeconds ≤ now - st.batchStart ∨
        conf.maxMessages ≤ (st.batch ++ [m]).length) ∧
    (∀ a ∈ (accept conf st m now ok1 ok2).attempts,
      a.1 = st.batch ++ [m]) ∧
    (¬ (conf.batchSeconds ≤ now - st.batchStart ∨
        conf.maxMessages ≤ (st.batch ++ [m]).length) →
      accept conf st m now ok1 ok2 =
        ⟨⟨st.batch ++ [m], st.batchStart⟩, []⟩) := by
  refine ⟨accept_attempts_ne_nil_iff conf st m now ok1 ok2,
    accept_attempts_fst conf st m now ok1 ok2, ?_⟩
  intro hnp
  have hp : ¬ flushPredicate conf st m now := hnp
  rw [accept_eq, if_neg hp]

/-- C2 witness: at the size threshold the predicate holds and a flush
attempt on the appended batch is made. -/
theorem accept_flush_exactly_on_predicate_witness :
    (((accept ⟨10, 2⟩ ⟨[⟨[97], 0⟩], 0⟩ ⟨[98], 1⟩ 1 true true).attempts ≠ [] ↔
      (10 : Nat) ≤ 1 - 0 ∨
        (2 : Nat) ≤ ([⟨[97], 0⟩] ++ [⟨[98], 1⟩] : List RawMessage).length) ∧
    (∀ a ∈ (accept ⟨10, 2⟩ ⟨[⟨[97], 0⟩], 0⟩ ⟨[98], 1⟩ 1 true true).attempts,
      a.1 = [⟨[97], 0⟩] ++ [⟨[98], 1⟩]) ∧
    (¬ ((10 : Nat) ≤ 1 - 0 ∨
        (2 : Nat) ≤ ([⟨[97], 0⟩] ++ [⟨[98], 1⟩] : List RawMessage).length) →
      accept ⟨10, 2⟩ ⟨[⟨[97], 0⟩], 0⟩ ⟨[98], 1⟩ 1 true true =
        ⟨⟨[⟨[97], 0⟩] ++ [⟨[98], 1⟩], 0⟩, []⟩)) :=
  accept_flush_exactly_on_predicate ⟨10, 2⟩ ⟨[⟨[97], 0⟩], 0⟩ ⟨[98], 1⟩ 1
    true true

/-- C7: whenever the appended batch has reached twice the configured
maximum size — in particular at exactly `2 * max_messages_per_batch` —
the `accept` step makes a flush attempt. -/
theorem safety_limit_forces_flush (conf : Conf) (st : StState)
    (m : RawMessage) (now : Nat) (ok1 ok2 : Bool)
    (h : conf.maxMessages * 2 ≤ (st.batch ++ [m]).length) :
    (accept conf st m now ok1 ok2).attempts ≠ [] := by
  apply (accept_attempts_ne_nil_iff conf st m now ok1 ok2).2
  unfold flushPredicate
  right
  simp only [List.length_append, List.length_cons, List.length_nil] at h ⊢
  omega

/-- C7 witness: with `max_messages_per_batch = 2`, a fourth message —
batch length exactly `2 * 2` — triggers a flush attempt. -/
theorem safety_limit_forces_flush_witness :
    (2 : Nat) * 2 ≤
      (([⟨[97], 0⟩, ⟨[98], 1⟩, ⟨[99], 2⟩] ++ [⟨[100], 3⟩] :
        List RawMessage)).length ∧
    (accept ⟨100, 2⟩ ⟨[⟨[97], 0⟩, ⟨[98], 1⟩, ⟨[99], 2⟩], 0⟩ ⟨[100], 3⟩ 3
        false false).attempts ≠ [] :=
  ⟨by decide,
    safety_limit_forces_flush ⟨100, 2⟩ ⟨[⟨[97], 0⟩, ⟨[98], 1⟩, ⟨[99], 2⟩], 0⟩
      ⟨[100], 3⟩ 3 false false (by decide)⟩

/-- C3: starting from any stored delay, a successful connection (which
resets the delay) followed by `K` consecutive failures — the first being
the eventual failure of that connection — leaves the stored delay at
`min(D0 * 2^K, D_max)` with `D0 = 1`, `D_max = 300`, and the sleep
before the `j`-th retry (`j = 1..K`) is `min(D0 * 2^(j-1), D_max)`; with
`K = 1` this is the "first failure after a success stores `D0 * 2`"
case. -/
theorem backoff_delay_formula (K dprev : Nat) (hK : 1 ≤ K) :
    connectLoopSleeps dprev (true :: List.replicate (K - 1) false) =
      (min (INITIAL_RECONNECT_DELAY * 2 ^ K) MAX_RECONNECT_DELAY,
        (List.range K).map fun j =>
          min (INITIAL_RECONNECT_DELAY * 2 ^ j) MAX_RECONNECT_DELAY) := by
  have hone : ∀ j : Nat,
      min (INITIAL_RECONNECT_DELAY * 2 ^ j) MAX_RECONNECT_DELAY =
        cappedDelay j := by
    intro j
    unfold INITIAL_RECONNECT_DELAY cappedDelay
    rw [one_mul]
  have hstep : connectLoopSleeps dprev (true :: List.replicate (K - 1) false) =
      ((connectLoopSleeps
          (min (INITIAL_RECONNECT_DELAY * 2) MAX_RECONNECT_DELAY)
          (List.replicate (K - 1) false)).1,
        INITIAL_RECONNECT_DELAY ::
          (connectLoopSleeps
            (min (INITIAL_RECONNECT_DELAY * 2) MAX_RECONNECT_DELAY)
            (List.replicate (K - 1) false)).2) := by
    simp [connectLoopSleeps]
  rw [hstep]
  have hcap1 : min (INITIAL_RECONNECT_DELAY * 2) MAX_RECONNECT_DELAY =
      cappedDelay 1 := by decide
  rw [hcap1, connectLoopSleeps_replicate (K - 1) 1]
  have hK1 : 1 + (K - 1) = K := by omega
  rw [hK1]
  have hlist : (List.range K).map
      (fun j => min (INITIAL_RECONNECT_DELAY * 2 ^ j) MAX_RECONNECT_DELAY) =
      INITIAL_RECONNECT_DELAY ::
        (List.range (K - 1)).map fun i => cappedDelay (1 + i) := by
    have hKs : K = (K - 1) + 1 := by omega
    rw [hKs, List.range_succ_eq_map, List.map_cons, List.map_map]
    have h0 : min (INITIAL_RECONNECT_DELAY * 2 ^ 0) MAX_RECONNECT_DELAY =
        INITIAL_RECONNECT_DELAY := by decide
    rw [h0]
    have hfun : ((fun j => min (INITIAL_RECONNECT_DELAY * 2 ^ j)
        MAX_RECONNECT_DELAY) ∘ Nat.succ) =
        fun i => cappedDelay (1 + i) := by
      funext i
      have : Nat.succ i = 1 + i := by omega
      simp only [Function.comp, this, hone]
    rw [hfun]
    simp
  rw [hlist, hone K]

/-- C3 witness: after a success and `K = 3` consecutive failures the
stored delay is `min(1 * 2^3, 300) = 8` and the sleeps were `1, 2, 4`. -/
theorem backoff_delay_formula_witness :
    (1 : Nat) ≤ 3 ∧
    connectLoopSleeps 77 (true :: List.replicate (3 - 1) false) =
      (min (INITIAL_RECONNECT_DELAY * 2 ^ 3) MAX_RECONNECT_DELAY,
        (List.range 3).map fun j =>
          min (INITIAL_RECONNECT_DELAY * 2 ^ j) MAX_RECONNECT_DELAY) :=
  ⟨by decide, backoff_delay_formula 3 77 (by decide)⟩

/-- C5 counterexample: the claim fails as stated for a payload that
itself contains a newline byte.  With the identity pair as the
gzip-compressor/decompressor instance, the batch whose single message
has payload `[97, 10, 98]` yields an archived object whose lines are
`[97]` and `[98]` — splitting on newlines does not recover the original
payload. -/
theorem archive_split_cex :
    recoverLines (archivedObject (fun bs => bs) [⟨[97, 10, 98], 0⟩]) =
        [[97], [98]] ∧
    recoverLines (archivedObject (fun bs => bs) [⟨[97, 10, 98], 0⟩]) ≠
      ([⟨[97, 10, 98], 0⟩] : List RawMessage).map RawMessage.raw := by
  decide

/-- C5 (amended): for every non-empty batch, the archived object is
exactly the gzip compression of the concatenation, in batch order, of
each payload terminated by a newline; and — provided no payload contains
the newline byte — decompressing the object and splitting on newlines
recovers exactly the payloads that were in the batch at flush time, in
order, with no duplicates and no reordering. -/
theorem archive_format_roundtrip (gz gunzip : List Nat → List Nat)
    (hround : ∀ bs, gunzip (gz bs) = bs)
    (msgs : List RawMessage) (_hne : msgs ≠ [])
    (hnl : ∀ m ∈ msgs, 10 ∉ m.raw) :
    archivedObject gz msgs =
      gz ((msgs.map fun m => m.raw ++ [10]).flatten) ∧
    recoverLines (gunzip (archivedObject gz msgs)) =
      msgs.map RawMessage.raw := by
  constructor
  · rw [archivedObject, serializeBatch_eq_flatten]
  · rw [archivedObject, hround, recoverLines_serializeBatch msgs hnl]

/-- C5 witness: a two-message batch of newline-free payloads round-trips
through the identity compressor pair. -/
theorem archive_format_roundtrip_witness :
    (∀ bs : List Nat, (fun b => b) ((fun b => b) bs) = bs) ∧
    ([⟨[104], 0⟩, ⟨[105], 1⟩] : List RawMessage) ≠ [] ∧
    (∀ m ∈ ([⟨[104], 0⟩, ⟨[105], 1⟩] : List RawMessage), 10 ∉ m.raw) ∧
    (archivedObject (fun b => b) [⟨[104], 0⟩, ⟨[105], 1⟩] =
      (fun b => b)
        ((([⟨[104], 0⟩, ⟨[105], 1⟩] : List RawMessage).map
          fun m => m.raw ++ [10]).flatten) ∧
    recoverLines ((fun b => b)
        (archivedObject (fun b => b) [⟨[104], 0⟩, ⟨[105], 1⟩])) =
      ([⟨[104], 0⟩, ⟨[105], 1⟩] : List RawMessage).map RawMessage.raw) :=
  ⟨fun _ => rfl, by decide, by decide,
    archive_format_roundtrip (fun b => b) (fun b => b) (fun _ => rfl)
      [⟨[104], 0⟩, ⟨[105], 1⟩] (by decide) (by decide)⟩

/-- C6: key derivation is a pure function of the storage key root, the
exchange, the stream name and the flush timestamp — identical inputs
give identical keys — and the key equals the documented layout
`{prefix}/{exchange}/{streamName}/{YYYY}/{MM}/{DD}/{HH}/{YYYYMMDDThhmmss}.jsonl.gz`. -/
theorem build_key_pure_and_layout (pre exchange streamName : String)
    (ts : DateTime) :
    (∀ pre2 exchange2 streamName2 ts2, pre = pre2 → exchange = exchange2 →
      streamName = streamName2 → ts = ts2 →
      build_key pre exchange streamName ts =
        build_key pre2 exchange2 streamName2 ts2) ∧
    build_key pre exchange streamName ts =
      specKeyLayout pre exchange streamName ts := by
  constructor
  · intro pre2 exchange2 streamName2 ts2 h1 h2 h3 h4
    rw [h1, h2, h3, h4]
  · unfold build_key specKeyLayout strftimeDatePath strftimeStamp
    simp only [String.append_assoc]

/-- C6 witness: the key for a concrete timestamp matches the layout. -/
theorem build_key_pure_and_layout_witness :
    (∀ pre2 exchange2 streamName2 ts2,
      "binance/l2" = pre2 → "binance" = exchange2 →
      "btcusdt@depth20@1000ms" = streamName2 →
      (⟨2024, 3, 7, 15, 4, 5⟩ : DateTime) = ts2 →
      build_key "binance/l2" "binance" "btcusdt@depth20@1000ms"
          ⟨2024, 3, 7, 15, 4, 5⟩ =
        build_key pre2 exchange2 streamName2 ts2) ∧
    build_key "binance/l2" "binance" "btcusdt@depth20@1000ms"
        ⟨2024, 3, 7, 15, 4, 5⟩ =
      specKeyLayout "binance/l2" "binance" "btcusdt@depth20@1000ms"
        ⟨2024, 3, 7, 15, 4, 5⟩ :=
  build_key_pure_and_layout "binance/l2" "binance" "btcusdt@depth20@1000ms"
    ⟨2024, 3, 7, 15, 4, 5⟩

/-- C4: on a non-empty batch, `upload_messages` makes at most
`max_retries` put attempts (default 3); every attempt is handed the same
already-serialized compressed buffer in full (position reset before each
re-attempt, no re-serialization); the sleeps between successive attempts
are `2^0, 2^1, 2^2, …` (1, 2, 4 time units); the key is returned on the
first successful attempt; and when every attempt fails, the error of the
last attempt is raised. -/
theorem upload_retry_contract (gz : List Nat → List Nat)
    (pre exchange streamName : String) (ts : DateTime)
    (msgs : List RawMessage) (outcome : Nat → Option Nat)
    (maxRetries : Nat) (hmsgs : msgs ≠ []) (hr : 1 ≤ maxRetries) :
    (upload_messages gz pre exchange streamName ts msgs outcome
        maxRetries).sent.length ≤ maxRetries ∧
    (∀ s ∈ (upload_messages gz pre exchange streamName ts msgs outcome
        maxRetries).sent, s = archivedObject gz msgs) ∧
    (upload_messages gz pre exchange streamName ts msgs outcome
        maxRetries).waits =
      (List.range ((upload_messages gz pre exchange streamName ts msgs
          outcome maxRetries).sent.length - 1)).map (fun j => 2 ^ j) ∧
    (∀ j, j < maxRetries → outcome j = none →
      (∀ i, i < j → outcome i ≠ none) →
      (upload_messages gz pre exchange streamName ts msgs outcome
          maxRetries).result =
        Except.ok (build_key pre exchange streamName ts) ∧
      (upload_messages gz pre exchange streamName ts msgs outcome
          maxRetries).sent.length = j + 1) ∧
    (∀ e, (∀ i, i < maxRetries → outcome i ≠ none) →
      outcome (maxRetries - 1) = some e →
      (upload_messages gz pre exchange streamName ts msgs outcome
          maxRetries).result = Except.error e ∧
      (upload_messages gz pre exchange streamName ts msgs outcome
          maxRetries).sent.length = maxRetries) := by
  rw [upload_messages, if_neg hmsgs]
  refine ⟨uploadGo_sent_length_le _ outcome maxRetries _ 0, ?_, ?_, ?_, ?_⟩
  · exact uploadGo_sent_content _ outcome maxRetries (archivedObject gz msgs) 0
  · rw [uploadGo_waits _ outcome maxRetries ⟨archivedObject gz msgs, 0⟩ 0]
    simp
  · intro j hj hnone hbefore
    exact uploadGo_first_success _ outcome j maxRetries
      ⟨archivedObject gz msgs, 0⟩ 0 hj (by simpa using hnone)
      (fun i hi => by simpa using hbefore i hi)
  · intro e hall hlast
    exact uploadGo_all_fail _ outcome maxRetries
      ⟨archivedObject gz msgs, 0⟩ 0 e hr
      (fun i hi => by simpa using hall i hi) (by simpa using hlast)

/-- C4 witness: with the outcome oracle failing the first attempt and
succeeding on the second, a singleton batch is uploaded on the second
attempt after a single sleep of 1 unit. -/
theorem upload_retry_contract_witness :
    ([⟨[104], 0⟩] : List RawMessage) ≠ [] ∧ (1 : Nat) ≤ 3 ∧
    ((upload_messages (fun b => b) "binance/l2" "binance" "s"
        ⟨2024, 1, 2, 3, 4, 5⟩ [⟨[104], 0⟩]
        (fun i => if i = 0 then some 7 else none) 3).sent.length ≤ 3 ∧
    (∀ s ∈ (upload_messages (fun b => b) "binance/l2" "binance" "s"
        ⟨2024, 1, 2, 3, 4, 5⟩ [⟨[104], 0⟩]
        (fun i => if i = 0 then some 7 else none) 3).sent,
      s = archivedObject (fun b => b) [⟨[104], 0⟩]) ∧
    (upload_messages (fun b => b) "binance/l2" "binance" "s"
        ⟨2024, 1, 2, 3, 4, 5⟩ [⟨[104], 0⟩]
        (fun i => if i = 0 then some 7 else none) 3).waits =
      (List.range ((upload_messages (fun b => b) "binance/l2" "binance" "s"
          ⟨2024, 1, 2, 3, 4, 5⟩ [⟨[104], 0⟩]
          (fun i => if i = 0 then some 7 else none) 3).sent.length - 1)).map
        (fun j => 2 ^ j) ∧
    (∀ j, j < 3 → (fun i => if i = 0 then some 7 else none) j = none →
      (∀ i, i < j → (fun i => if i = 0 then some 7 else none) i ≠ none) →
      (upload_messages (fun b => b) "binance/l2" "binance" "s"
          ⟨2024, 1, 2, 3, 4, 5⟩ [⟨[104], 0⟩]
          (fun i => if i = 0 then some 7 else none) 3).result =
        Except.ok (build_key "binance/l2" "binance" "s"
          ⟨2024, 1, 2, 3, 4, 5⟩) ∧
      (upload_messages (fun b => b) "binance/l2" "binance" "s"
          ⟨2024, 1, 2, 3, 4, 5⟩ [⟨[104], 0⟩]
          (fun i => if i = 0 then some 7 else none) 3).sent.length = j + 1) ∧
    (∀ e, (∀ i, i < 3 →
        (fun i => if i = 0 then some 7 else none) i ≠ none) →
      (fun i => if i = 0 then some 7 else none) (3 - 1) = some e →
      (upload_messages (fun b => b) "binance/l2" "binance" "s"
          ⟨2024, 1, 2, 3, 4, 5⟩ [⟨[104], 0⟩]
          (fun i => if i = 0 then some 7 else none) 3).result =
        Except.error e ∧
      (upload_messages (fun b => b) "binance/l2" "binance" "s"
          ⟨2024, 1, 2, 3, 4, 5⟩ [⟨[104], 0⟩]
          (fun i => if i = 0 then some 7 else none) 3).sent.length = 3)) :=
  ⟨by decide, by decide,
    upload_retry_contract (fun b => b) "binance/l2" "binance" "s"
      ⟨2024, 1, 2, 3, 4, 5⟩ [⟨[104], 0⟩]
      (fun i => if i = 0 then some 7 else none) 3 (by decide) (by decide)⟩

/-- C8: startup exits with code 1 — before the streamer, hence before
any connection attempt, is constructed — exactly when the access key,
the secret key, or the bucket name is missing or empty; when all are
present, startup proceeds to run the streamer on the loaded
configuration.  (The stream identity can never be missing: every
`StreamConfig` field has a default.) -/
theorem startup_validation (e : Env) :
    (mainStartup e = MainResult.fatalExit 1 ↔
      (falsyStr e.awsAccessKeyId = true ∨
        falsyStr e.awsSecretAccessKey = true ∨
        falsyStr e.s3BucketName = true)) ∧
    (¬ (falsyStr e.awsAccessKeyId = true ∨
        falsyStr e.awsSecretAccessKey = true ∨
        falsyStr e.s3BucketName = true) →
      mainStartup e =
        MainResult.runStreamer (AWSConfig.ofEnv e) (StreamConfig.ofEnv e)) := by
  cases h1 : falsyStr e.awsAccessKeyId <;>
    cases h2 : falsyStr e.awsSecretAccessKey <;>
      cases h3 : falsyStr e.s3BucketName <;>
        simp [mainStartup, AWSConfig.ofEnv, h1, h2, h3]

/-- C8 witness: a fully configured environment runs the streamer, and an
environment lacking the bucket exits with code 1. -/
theorem startup_validation_witness :
    ((mainStartup ⟨some "k", some "s", none, some "b", none, none, none,
        none, none, none⟩ = MainResult.fatalExit 1 ↔
      (falsyStr (some "k") = true ∨ falsyStr (some "s") = true ∨
        falsyStr (some "b") = true)) ∧
    (¬ (falsyStr (some "k") = true ∨ falsyStr (some "s") = true ∨
        falsyStr (some "b") = true) →
      mainStartup ⟨some "k", some "s", none, some "b", none, none, none,
          none, none, none⟩ =
        MainResult.runStreamer
          (AWSConfig.ofEnv ⟨some "k", some "s", none, some "b", none, none,
            none, none, none, none⟩)
          (StreamConfig.ofEnv ⟨some "k", some "s", none, some "b", none,
            none, none, none, none, none⟩))) :=
  startup_validation ⟨some "k", some "s", none, some "b", none, none, none,
    none, none, none⟩

/-- C10 counterexample: the age component does not remain satisfied
after a failed flush.  With `batch_seconds = 10` and
`max_messages_per_batch = 2`, the second message (received at time 2)
triggers a size-based flush that fails; at the next evaluation time 3
the age component `batch_seconds <= now - batch_start` is false — yet
the claim asserts it remains satisfied for every later evaluation. -/
theorem failed_flush_age_cex :
    (accept ⟨10, 2⟩ ⟨[⟨[97], 1⟩], 0⟩ ⟨[98], 2⟩ 2 false false).attempts =
        [([⟨[97], 1⟩, ⟨[98], 2⟩], false)] ∧
    (accept ⟨10, 2⟩ ⟨[⟨[97], 1⟩], 0⟩ ⟨[98], 2⟩ 2 false false).state =
        ⟨[⟨[97], 1⟩, ⟨[98], 2⟩], 0⟩ ∧
    ¬ ((10 : Nat) ≤ 3 -
        (accept ⟨10, 2⟩ ⟨[⟨[97], 1⟩], 0⟩ ⟨[98], 2⟩ 2 false
          false).state.batchStart) := by
  decide

/-- C10 (amended): because `batch_start` is reset only on a successful
upload and the batch only grows, after an `accept` step whose flush
attempts all failed the *whole* flush predicate (age or size) remains
satisfied at every later evaluation time, so the next accepted message
triggers another flush attempt, and its snapshot is the retained batch
followed by the new message. -/
theorem failed_flush_persists (conf : Conf) (st : StState)
    (m m' : RawMessage) (now now' : Nat) (ok1 ok2 ok1' ok2' : Bool)
    (hne : (accept conf st m now ok1 ok2).attempts ≠ [])
    (hfail : ∀ a ∈ (accept conf st m now ok1 ok2).attempts, a.2 = false)
    (hle : now ≤ now') :
    (accept conf (accept conf st m now ok1 ok2).state m' now' ok1'
        ok2').attempts ≠ [] ∧
    ∀ a ∈ (accept conf (accept conf st m now ok1 ok2).state m' now' ok1'
        ok2').attempts,
      a.1 = (st.batch ++ [m]) ++ [m'] := by
  have hp := (accept_attempts_ne_nil_iff conf st m now ok1 ok2).1 hne
  have hst := accept_state_of_all_failed conf st m now ok1 ok2 hne hfail
  rw [hst]
  constructor
  · apply (accept_attempts_ne_nil_iff conf
      ⟨st.batch ++ [m], st.batchStart⟩ m' now' ok1' ok2').2
    unfold flushPredicate at hp ⊢
    simp only [List.length_append, List.length_cons, List.length_nil]
      at hp ⊢
    rcases hp with h | h
    · exact Or.inl (le_trans h (Nat.sub_le_sub_right hle _))
    · exact Or.inr (by omega)
  · intro a ha
    have hfst := accept_attempts_fst conf ⟨st.batch ++ [m], st.batchStart⟩
      m' now' ok1' ok2' a ha
    simpa using hfst

/-- C10 witness: a size-triggered failed flush at time 2 is followed, at
time 3, by another flush attempt whose snapshot is the retained batch
plus the new message. -/
theorem failed_flush_persists_witness :
    ((accept ⟨10, 2⟩ ⟨[⟨[97], 1⟩], 0⟩ ⟨[98], 2⟩ 2 false false).attempts
        ≠ []) ∧
    (∀ a ∈ (accept ⟨10, 2⟩ ⟨[⟨[97], 1⟩], 0⟩ ⟨[98], 2⟩ 2 false
        false).attempts, a.2 = false) ∧
    (2 : Nat) ≤ 3 ∧
    ((accept ⟨10, 2⟩
        (accept ⟨10, 2⟩ ⟨[⟨[97], 1⟩], 0⟩ ⟨[98], 2⟩ 2 false false).state
        ⟨[99], 3⟩ 3 false false).attempts ≠ [] ∧
    ∀ a ∈ (accept ⟨10, 2⟩
        (accept ⟨10, 2⟩ ⟨[⟨[97], 1⟩], 0⟩ ⟨[98], 2⟩ 2 false false).state
        ⟨[99], 3⟩ 3 false false).attempts,
      a.1 = ([⟨[97], 1⟩] ++ [⟨[98], 2⟩]) ++ [⟨[99], 3⟩]) :=
  ⟨by decide, by decide, by decide,
    failed_flush_persists ⟨10, 2⟩ ⟨[⟨[97], 1⟩], 0⟩ ⟨[98], 2⟩ ⟨[99], 3⟩ 2 3
      false false false false (by decide) (by decide) (by decide)⟩
